import Mathlib

set_option linter.unnecessarySeqFocus false

/-!
Shallow embedding of the ecr-cleanup utility (Go, `main.go` and its
testable wrappers) together with proofs about its image-selection policy,
batch deletion protocol, repository processing and run driver.

Modelling conventions:
* `time.Time` values are modelled as `Int` instants (seconds); the Go call
  `time.Now().AddDate(0, 0, -cfg.Days)` becomes `now + (-cfg.days) * secondsPerDay`.
  `Time.Before` is strict `<`, `Time.After` is strict `>`.
* Go nil-able pointer fields (`*time.Time`, `*int64`, `*string`) are `Option`.
* The AWS client is modelled by explicit oracles: the flattened result of a
  paginated fetch is an `Except String` value, and each remote call issued by
  the code is recorded in an explicit trace (a list of the call payloads), so
  that frame properties (how many calls, with which arguments) are provable.
* Go functions returning `(T, error)` are modelled as returning `T × Option String`.
-/

/-- Image detail record, modelling `types.ImageDetail` as consumed by `main.go`:
tags, digest, push timestamp and size, the last three nil-able. -/
structure ImageDetail where
  imageTags : List String
  imageDigest : Option String
  imagePushedAt : Option Int
  imageSizeInBytes : Option Int
deriving DecidableEq, Repr

/-- Image identifier, modelling `types.ImageIdentifier`: a tag or a digest,
either of which may be absent. -/
structure ImageIdentifier where
  imageTag : Option String
  imageDigest : Option String
deriving DecidableEq, Repr

/-- Application configuration, modelling the `Config` struct of `main.go`. -/
structure Config where
  dryRun : Bool
  days : Int
  region : String
  maxImages : Int
deriving DecidableEq, Repr

/-- Cleanup counters, modelling the `CleanupSummary` struct of `main.go`. -/
structure CleanupSummary where
  repositoriesProcessed : Int
  imagesDeleted : Int
  spaceFreed : Int
deriving DecidableEq, Repr

/-- Seconds in one day, the unit used to model `AddDate(0, 0, -days)`. -/
def secondsPerDay : Int := 86400

/-- Comparator of `sortImagesByPushedTime` (main.go lines 286-296): images
with a nil push time sort to the end, otherwise newest (`After`) first. -/
def lessPushed (a b : ImageDetail) : Bool :=
  match a.imagePushedAt, b.imagePushedAt with
  | none, _ => false
  | some _, none => true
  | some ta, some tb => tb < ta

/-- Model of `sortImagesByPushedTime` (main.go lines 284-297): sort with the
comparator `lessPushed`; `a` may precede `b` exactly when `lessPushed b a`
does not hold (the post-condition `sort.Slice` establishes). -/
def sortImagesByPushedTime (images : List ImageDetail) : List ImageDetail :=
  images.mergeSort (fun a b => !lessPushed b a)

/-- Age test of the selection loop (main.go line 275):
`img.ImagePushedAt != nil && img.ImagePushedAt.Before(cutoffTime)`. -/
def isOldPred (cutoffTime : Int) (img : ImageDetail) : Bool :=
  match img.imagePushedAt with
  | some t => decide (t < cutoffTime)
  | none => false

/-- Selection loop of `selectImagesForDeletion` (main.go lines 268-278):
iterate with index `i`, skip while `i < keepCount`, then keep images whose
push time is known and strictly before the cutoff. -/
def selectLoop (cutoffTime : Int) (keepCount : Nat) : Nat → List ImageDetail → List ImageDetail
  | _, [] => []
  | i, img :: rest =>
    if i < keepCount then
      selectLoop cutoffTime keepCount (i + 1) rest
    else if isOldPred cutoffTime img then
      img :: selectLoop cutoffTime keepCount (i + 1) rest
    else
      selectLoop cutoffTime keepCount (i + 1) rest

/-- Model of `selectImagesForDeletion` (main.go lines 252-281): compute the
cutoff `now - days`, sort newest first, compute
`keepCount = min(MaxImages, len(images))` when `MaxImages > 0` else `0`,
then run the selection loop from index 0. -/
def selectImagesForDeletion (now : Int) (images : List ImageDetail) (cfg : Config) :
    List ImageDetail :=
  let cutoffTime := now + (-cfg.days) * secondsPerDay
  let sorted := sortImagesByPushedTime images
  let keepCount : Nat := if cfg.maxImages > 0 then min cfg.maxImages.toNat images.length else 0
  selectLoop cutoffTime keepCount 0 sorted

/-- Model of `getImageTag` (main.go lines 300-306): first tag when present,
otherwise the dereference `*img.ImageDigest`, which is undefined (a nil
pointer dereference, hence `none` here) when the digest is absent. -/
def getImageTag (img : ImageDetail) : Option String :=
  match img.imageTags with
  | t :: _ => some t
  | [] => img.imageDigest

/-- Model of `getImageIdString` (main.go lines 360-371): tag, else digest,
else the sentinel string unknown; a nil identifier also yields unknown. -/
def getImageIdString (id : Option ImageIdentifier) : String :=
  match id with
  | none => "unknown"
  | some i =>
    match i.imageTag with
    | some t => t
    | none =>
      match i.imageDigest with
      | some d => d
      | none => "unknown"

/-- Identifier built for each image of a batch by `deleteImages`
(main.go lines 322-333): tag field set to the first tag when tags exist,
otherwise digest field set to the (possibly nil) digest. -/
def imageIdOf (img : ImageDetail) : ImageIdentifier :=
  match img.imageTags with
  | t :: _ => { imageTag := some t, imageDigest := none }
  | [] => { imageTag := none, imageDigest := img.imageDigest }

/-- Batch size limit of `deleteImages` (main.go line 311). -/
def batchSize : Nat := 100

/-- Consecutive chunks of at most `batchSize`, the partition the loop of
`deleteImages` (main.go line 313) walks: `images[i:min(i+100, len)]`. -/
def chunkList {α : Type} (l : List α) : List (List α) :=
  if l.isEmpty then []
  else l.take batchSize :: chunkList (l.drop batchSize)
termination_by l.length
decreasing_by
  rename_i h
  have hne : l ≠ [] := by simpa [List.isEmpty_iff] using h
  have hl : 0 < l.length := List.length_pos.mpr hne
  simp only [List.length_drop, batchSize]
  omega

/-- Model of `deleteImages` (main.go lines 309-357): walk the selection in
chunks of at most 100, build the identifier list of each chunk, issue one
`BatchDeleteImage` call per chunk through the oracle `batchDelete`, abort on
the first transport error. Returns the transport result together with the
ordered trace of call payloads actually issued. -/
def deleteImages (batchDelete : List ImageIdentifier → Except String Unit)
    (images : List ImageDetail) : Except String Unit × List (List ImageIdentifier) :=
  if images.isEmpty then (Except.ok (), [])
  else
    let imageIds := (images.take batchSize).map imageIdOf
    match batchDelete imageIds with
    | Except.error e => (Except.error ("failed to delete batch of images: " ++ e), [imageIds])
    | Except.ok _ =>
      let rest := deleteImages batchDelete (images.drop batchSize)
      (rest.1, imageIds :: rest.2)
termination_by images.length
decreasing_by
  rename_i h
  have hne : images ≠ [] := by simpa [List.isEmpty_iff] using h
  have hl : 0 < images.length := List.length_pos.mpr hne
  simp only [List.length_drop, batchSize]
  omega

/-- Space accumulation of `processRepository` (main.go lines 178-182): sum
the known sizes of the selected images, a nil size contributing nothing. -/
def sumSizes (images : List ImageDetail) : Int :=
  images.foldl
    (fun acc img =>
      match img.imageSizeInBytes with
      | some s => acc + s
      | none => acc)
    0

/-- Model of `processRepository` (main.go lines 155-212). The paginated image
fetch is abstracted by its flattened outcome `fetchImages`; `batchDelete` is
the transport oracle handed to `deleteImages`. Returns the Go pair
(summary, error) together with the trace of `BatchDeleteImage` payloads. -/
def processRepository (fetchImages : Except String (List ImageDetail))
    (batchDelete : List ImageIdentifier → Except String Unit)
    (cfg : Config) (now : Int) :
    (CleanupSummary × Option String) × List (List ImageIdentifier) :=
  let repoSummary : CleanupSummary :=
    { repositoriesProcessed := 1, imagesDeleted := 0, spaceFreed := 0 }
  match fetchImages with
  | Except.error e => ((repoSummary, some ("failed to get image details: " ++ e)), [])
  | Except.ok images =>
    let toDelete := selectImagesForDeletion now images cfg
    if toDelete.isEmpty then ((repoSummary, none), [])
    else
      let summary1 : CleanupSummary :=
        { repoSummary with
          imagesDeleted := Int.ofNat toDelete.length
          spaceFreed := sumSizes toDelete }
      if cfg.dryRun then ((summary1, none), [])
      else
        match deleteImages batchDelete toDelete with
        | (Except.ok _, tr) => ((summary1, none), tr)
        | (Except.error e, tr) => ((summary1, some e), tr)

/-- Model of `CleanupWithClient` (wrapper file lines 91-115). The paginated
repository fetch is abstracted by its flattened outcome `repos`; `proc` is
the per-repository outcome of `processRepository`. A failed repository fetch
is returned immediately; `RepositoriesProcessed` is set to the list length
before the loop; a per-repository error skips that repository's contribution. -/
def CleanupWithClient (repos : Except String (List String))
    (proc : String → CleanupSummary × Option String) :
    CleanupSummary × Option String :=
  match repos with
  | Except.error e =>
    ({ repositoriesProcessed := 0, imagesDeleted := 0, spaceFreed := 0 }, some e)
  | Except.ok rs =>
    let final := rs.foldl
      (fun acc r =>
        match proc r with
        | (repoSummary, none) =>
          { acc with
            imagesDeleted := acc.imagesDeleted + repoSummary.imagesDeleted
            spaceFreed := acc.spaceFreed + repoSummary.spaceFreed }
        | (_, some _) => acc)
      { repositoriesProcessed := Int.ofNat rs.length, imagesDeleted := 0, spaceFreed := 0 }
    (final, none)

/-- Model of `getImageDetails` (main.go lines 215-249). The successive
`ListImages` responses are abstracted as `pages`, the list of identifier
lists the pagination yields (the last page being the one with a nil token);
`describe` is the `DescribeImages` oracle. A page is described only when its
identifier list is non-empty; the first describe error aborts the loop.
Returns the accumulated details together with the trace of `DescribeImages`
payloads actually issued. -/
def getImageDetails (describe : List ImageIdentifier → Except String (List ImageDetail)) :
    List (List ImageIdentifier) →
      Except String (List ImageDetail) × List (List ImageIdentifier)
  | [] => (Except.ok [], [])
  | page :: rest =>
    if 0 < page.length then
      match describe page with
      | Except.error e => (Except.error e, [page])
      | Except.ok imgs =>
        match getImageDetails describe rest with
        | (Except.ok more, tr) => (Except.ok (imgs ++ more), page :: tr)
        | (Except.error e, tr) => (Except.error e, page :: tr)
    else
      getImageDetails describe rest

/-- The selection loop beginning at index `i` is: drop the first
`keepCount - i` elements, then filter by the age predicate. -/
theorem selectLoop_eq (cutoffTime : Int) (keepCount : Nat) :
    ∀ (l : List ImageDetail) (i : Nat),
      selectLoop cutoffTime keepCount i l =
        (l.drop (keepCount - i)).filter (isOldPred cutoffTime) := by
  intro l
  induction l with
  | nil => intro i; simp [selectLoop]
  | cons img rest ih =>
    intro i
    by_cases h : i < keepCount
    · have hd : keepCount - i = (keepCount - (i + 1)) + 1 := by omega
      simp [selectLoop, h, ih (i + 1), hd]
    · have hd : keepCount - i = 0 := by omega
      have hd' : keepCount - (i + 1) = 0 := by omega
      by_cases hp : isOldPred cutoffTime img
      · simp [selectLoop, h, hp, ih (i + 1), hd, hd', List.filter]
      · simp [selectLoop, h, hp, ih (i + 1), hd, hd', List.filter]

/-- Unfolding of the selector: sorted list, drop the keep window, filter. -/
theorem selectImagesForDeletion_eq (now : Int) (images : List ImageDetail) (cfg : Config) :
    selectImagesForDeletion now images cfg =
      ((sortImagesByPushedTime images).drop
          (if cfg.maxImages > 0 then min cfg.maxImages.toNat images.length else 0)).filter
        (isOldPred (now + (-cfg.days) * secondsPerDay)) := by
  simp [selectImagesForDeletion, selectLoop_eq]

/-- Totality of the sort comparator. -/
theorem lessPushed_total (a b : ImageDetail) :
    (!lessPushed b a || !lessPushed a b) = true := by
  cases ha : a.imagePushedAt <;> cases hb : b.imagePushedAt <;>
    simp [lessPushed, ha, hb] <;> omega

/-- Transitivity of the sort comparator. -/
theorem lessPushed_trans (a b c : ImageDetail)
    (hab : (!lessPushed b a) = true) (hbc : (!lessPushed c b) = true) :
    (!lessPushed c a) = true := by
  cases ha : a.imagePushedAt <;> cases hb : b.imagePushedAt <;> cases hc : c.imagePushedAt <;>
    simp [lessPushed, ha, hb, hc] at * <;> omega

/-- The sorted list is a permutation of the input. -/
theorem sortImagesByPushedTime_perm (l : List ImageDetail) :
    (sortImagesByPushedTime l).Perm l :=
  List.mergeSort_perm l _

/-- The sorted list is pairwise ordered by the comparator. -/
theorem sortImagesByPushedTime_pairwise (l : List ImageDetail) :
    (sortImagesByPushedTime l).Pairwise (fun a b => (!lessPushed b a) = true) :=
  List.sorted_mergeSort lessPushed_trans lessPushed_total l

/-- Membership in a dropped list in terms of indices. -/
theorem mem_drop_iff {α : Type} (l : List α) (k : Nat) (x : α) :
    x ∈ l.drop k ↔ ∃ i : Nat, k ≤ i ∧ l.get? i = some x := by
  constructor
  · intro hx
    obtain ⟨j, hj⟩ := List.get?_of_mem hx
    refine ⟨k + j, by omega, ?_⟩
    rw [← hj, List.get?_drop]
  · rintro ⟨i, hki, hi⟩
    have hg : (l.drop k).get? (i - k) = l.get? i := by
      rw [List.get?_drop]
      congr 1
      omega
    exact List.get?_mem (by rw [hg]; exact hi)

/-- C1: an image with a known push timestamp is selected for deletion iff its
push time is strictly before `now` minus `Days` days and it occurs at a rank
`i ≥ keepCount` in the newest-first sorted order, where
`keepCount = min(MaxImages, len(images))` when `MaxImages > 0` and `0`
otherwise. -/
theorem selectImagesForDeletion_mem_iff (now : Int) (images : List ImageDetail)
    (cfg : Config) (img : ImageDetail) (t : Int) (ht : img.imagePushedAt = some t) :
    img ∈ selectImagesForDeletion now images cfg ↔
      (t < now - cfg.days * secondsPerDay ∧
        ∃ i : Nat,
          (if cfg.maxImages > 0 then min cfg.maxImages.toNat images.length else 0) ≤ i ∧
          (sortImagesByPushedTime images).get? i = some img) := by
  have hcut : now + (-cfg.days) * secondsPerDay = now - cfg.days * secondsPerDay := by ring
  rw [selectImagesForDeletion_eq, List.mem_filter, mem_drop_iff]
  constructor
  · rintro ⟨⟨i, hi, hget⟩, hold⟩
    refine ⟨?_, i, hi, hget⟩
    simp only [isOldPred, ht, decide_eq_true_eq] at hold
    omega
  · rintro ⟨hlt, i, hi, hget⟩
    refine ⟨⟨i, hi, hget⟩, ?_⟩
    simp only [isOldPred, ht, decide_eq_true_eq]
    omega

/-- C1 witness: a single year-old image with `days = 1`, `maxImages = 0` is
selected, as the characterisation at rank 0 demands. -/
theorem selectImagesForDeletion_mem_iff_witness :
    ((⟨["latest"], some "sha256:aaa", some 0, some 5⟩ : ImageDetail) ∈
        selectImagesForDeletion (2 * secondsPerDay)
          [⟨["latest"], some "sha256:aaa", some 0, some 5⟩]
          { dryRun := false, days := 1, region := "", maxImages := 0 } ↔
      ((0 : Int) < 2 * secondsPerDay - 1 * secondsPerDay ∧
        ∃ i : Nat,
          (if (0 : Int) > 0 then
              min (0 : Int).toNat
                [(⟨["latest"], some "sha256:aaa", some 0, some 5⟩ : ImageDetail)].length
            else 0) ≤ i ∧
          (sortImagesByPushedTime
              [⟨["latest"], some "sha256:aaa", some 0, some 5⟩]).get? i =
            some ⟨["latest"], some "sha256:aaa", some 0, some 5⟩)) :=
  selectImagesForDeletion_mem_iff (2 * secondsPerDay)
    [⟨["latest"], some "sha256:aaa", some 0, some 5⟩]
    { dryRun := false, days := 1, region := "", maxImages := 0 }
    ⟨["latest"], some "sha256:aaa", some 0, some 5⟩ 0 rfl

/-- C2: an image whose push timestamp is unknown is never selected for
deletion, whatever the list, the policy and the evaluation instant. -/
theorem unknownTimestamp_not_selected (now : Int) (images : List ImageDetail)
    (cfg : Config) (img : ImageDetail) (h : img.imagePushedAt = none) :
    img ∉ selectImagesForDeletion now images cfg := by
  rw [selectImagesForDeletion_eq, List.mem_filter]
  rintro ⟨-, hold⟩
  simp [isOldPred, h] at hold

/-- C2 witness: an image with no timestamp, ranked outside the keep window of
an old repository, is still not selected. -/
theorem unknownTimestamp_not_selected_witness :
    (⟨[], some "sha256:bbb", none, some 7⟩ : ImageDetail) ∉
      selectImagesForDeletion (3 * secondsPerDay)
        [⟨["v1"], some "sha256:ccc", some 0, some 5⟩,
         ⟨[], some "sha256:bbb", none, some 7⟩]
        { dryRun := false, days := 1, region := "", maxImages := 0 } :=
  unknownTimestamp_not_selected (3 * secondsPerDay)
    [⟨["v1"], some "sha256:ccc", some 0, some 5⟩,
     ⟨[], some "sha256:bbb", none, some 7⟩]
    { dryRun := false, days := 1, region := "", maxImages := 0 }
    ⟨[], some "sha256:bbb", none, some 7⟩ rfl

/-- C6: sorting is a permutation of the input, and in the result every pair
in order satisfies: if the later image has a known push time, the earlier one
also has one, at least as recent — so images are ordered most recent first
and all unknown-timestamp images come after all known-timestamp ones. -/
theorem sortImagesByPushedTime_spec (l : List ImageDetail) :
    (sortImagesByPushedTime l).Perm l ∧
      (sortImagesByPushedTime l).Pairwise (fun a b =>
        ∀ tb, b.imagePushedAt = some tb →
          ∃ ta, a.imagePushedAt = some ta ∧ tb ≤ ta) := by
  refine ⟨sortImagesByPushedTime_perm l, (sortImagesByPushedTime_pairwise l).imp ?_⟩
  intro a b hab
  intro tb htb
  cases ha : a.imagePushedAt with
  | none => simp [lessPushed, ha, htb] at hab
  | some ta =>
    refine ⟨ta, rfl, ?_⟩
    simp only [lessPushed, ha, htb, Bool.not_eq_true'] at hab
    simpa using hab

/-- Number of chunks is the ceiling of the length divided by 100. -/
theorem chunkList_length {α : Type} : ∀ (l : List α),
    (chunkList l).length = (l.length + 99) / 100 := by
  have H : ∀ (n : Nat) (l : List α), l.length ≤ n →
      (chunkList l).length = (l.length + 99) / 100 := by
    intro n
    induction n with
    | zero =>
      intro l h
      have h0 : l = [] := List.length_eq_zero.mp (by omega)
      subst h0
      rw [chunkList]
      simp
    | succ n ih =>
      intro l h
      by_cases he : l.isEmpty
      · have h0 : l = [] := List.isEmpty_iff.mp he
        subst h0
        rw [chunkList]
        simp
      · have hne : l ≠ [] := by simpa [List.isEmpty_iff] using he
        have hl : 0 < l.length := List.length_pos.mpr hne
        rw [chunkList, if_neg he]
        simp only [List.length_cons]
        rw [ih (l.drop batchSize) (by simp only [List.length_drop, batchSize]; omega)]
        simp only [List.length_drop, batchSize]
        omega
  intro l
  exact H l.length l (le_refl _)

/-- Every chunk holds at most 100 elements. -/
theorem chunkList_mem_le {α : Type} : ∀ (l : List α), ∀ c ∈ chunkList l, c.length ≤ 100 := by
  have H : ∀ (n : Nat) (l : List α), l.length ≤ n → ∀ c ∈ chunkList l, c.length ≤ 100 := by
    intro n
    induction n with
    | zero =>
      intro l h c hc
      have h0 : l = [] := List.length_eq_zero.mp (by omega)
      subst h0
      rw [chunkList] at hc
      simp at hc
    | succ n ih =>
      intro l h c hc
      by_cases he : l.isEmpty
      · have h0 : l = [] := List.isEmpty_iff.mp he
        subst h0
        rw [chunkList] at hc
        simp at hc
      · rw [chunkList, if_neg he] at hc
        rcases List.mem_cons.mp hc with hc1 | hc1
        · subst hc1
          simp [List.length_take, batchSize]
        · exact ih (l.drop batchSize)
            (by simp only [List.length_drop, batchSize]; omega) c hc1
  intro l
  exact H l.length l (le_refl _)

/-- Concatenating the chunks gives back the original list. -/
theorem chunkList_flatten {α : Type} : ∀ (l : List α), (chunkList l).flatten = l := by
  have H : ∀ (n : Nat) (l : List α), l.length ≤ n → (chunkList l).flatten = l := by
    intro n
    induction n with
    | zero =>
      intro l h
      have h0 : l = [] := List.length_eq_zero.mp (by omega)
      subst h0
      rw [chunkList]
      simp
    | succ n ih =>
      intro l h
      by_cases he : l.isEmpty
      · have h0 : l = [] := List.isEmpty_iff.mp he
        subst h0
        rw [chunkList]
        simp
      · rw [chunkList, if_neg he]
        simp only [List.flatten_cons]
        rw [ih (l.drop batchSize) (by simp only [List.length_drop, batchSize]; omega)]
        exact List.take_append_drop _ l
  intro l
  exact H l.length l (le_refl _)

/-- When every transport call succeeds, `deleteImages` succeeds and its call
trace is exactly the chunk partition, each chunk mapped to identifiers. -/
theorem deleteImages_ok_trace (bd : List ImageIdentifier → Except String Unit)
    (hbd : ∀ ids, bd ids = Except.ok ()) : ∀ (images : List ImageDetail),
    deleteImages bd images =
      (Except.ok (), (chunkList images).map (fun c => c.map imageIdOf)) := by
  have H : ∀ (n : Nat) (images : List ImageDetail), images.length ≤ n →
      deleteImages bd images =
        (Except.ok (), (chunkList images).map (fun c => c.map imageIdOf)) := by
    intro n
    induction n with
    | zero =>
      intro images h
      have h0 : images = [] := List.length_eq_zero.mp (by omega)
      subst h0
      rw [deleteImages, chunkList]
      simp
    | succ n ih =>
      intro images h
      by_cases he : images.isEmpty
      · have h0 : images = [] := List.isEmpty_iff.mp he
        subst h0
        rw [deleteImages, chunkList]
        simp
      · rw [deleteImages, chunkList, if_neg he, if_neg he]
        simp only [hbd,
          ih (images.drop batchSize) (by simp only [List.length_drop, batchSize]; omega)]
        simp
  intro images
  exact H images.length images (le_refl _)

/-- C3: with a transport that accepts every call, deleting `N` selected
images issues exactly `ceil(N/100)` batch calls, each carrying at most 100
identifiers, and the concatenation of the call payloads is exactly the
identifier of each selected image in order: no duplicate, no omission
(`N = 0` issues zero calls since `(0 + 99) / 100 = 0`). -/
theorem deleteImages_batching (bd : List ImageIdentifier → Except String Unit)
    (images : List ImageDetail) (hbd : ∀ ids, bd ids = Except.ok ()) :
    (deleteImages bd images).2.length = (images.length + 99) / 100 ∧
    (∀ c ∈ (deleteImages bd images).2, c.length ≤ 100) ∧
    (deleteImages bd images).2.flatten = images.map imageIdOf ∧
    (deleteImages bd images).1 = Except.ok () := by
  rw [deleteImages_ok_trace bd hbd images]
  refine ⟨?_, ?_, ?_, rfl⟩
  · simp [chunkList_length]
  · intro c hc
    simp only [List.mem_map] at hc
    obtain ⟨c0, hc0, rfl⟩ := hc
    simpa using chunkList_mem_le images c0 hc0
  · rw [← List.map_flatten, chunkList_flatten]

/-- C3 witness: 101 identical images are deleted in two calls, of 100 and 1
identifiers, covering all 101 images. -/
theorem deleteImages_batching_witness :
    (∀ ids : List ImageIdentifier,
      (fun _ : List ImageIdentifier => (Except.ok () : Except String Unit)) ids =
        Except.ok ()) ∧
    ((deleteImages (fun _ => Except.ok ())
          (List.replicate 101 ⟨["v1"], some "sha256:ddd", some 0, some 3⟩)).2.length =
        ((List.replicate 101
            (⟨["v1"], some "sha256:ddd", some 0, some 3⟩ : ImageDetail)).length + 99) / 100 ∧
      (∀ c ∈ (deleteImages (fun _ => Except.ok ())
          (List.replicate 101 ⟨["v1"], some "sha256:ddd", some 0, some 3⟩)).2,
        c.length ≤ 100) ∧
      (deleteImages (fun _ => Except.ok ())
          (List.replicate 101 ⟨["v1"], some "sha256:ddd", some 0, some 3⟩)).2.flatten =
        (List.replicate 101
            (⟨["v1"], some "sha256:ddd", some 0, some 3⟩ : ImageDetail)).map imageIdOf ∧
      (deleteImages (fun _ => Except.ok ())
          (List.replicate 101 ⟨["v1"], some "sha256:ddd", some 0, some 3⟩)).1 =
        Except.ok ()) :=
  ⟨fun _ => rfl,
    deleteImages_batching (fun _ => Except.ok ())
      (List.replicate 101 ⟨["v1"], some "sha256:ddd", some 0, some 3⟩) (fun _ => rfl)⟩

/-- C4: in dry-run mode `processRepository` issues no `BatchDeleteImage`
call whatever the input, and on a successful fetch its summary still
reports the would-be deletion count and the projected bytes freed (the sum
of known sizes over the selected images, a missing size contributing zero). -/
theorem processRepository_dryRun (fetch : Except String (List ImageDetail))
    (bd : List ImageIdentifier → Except String Unit) (cfg : Config) (now : Int)
    (hdry : cfg.dryRun = true) :
    (processRepository fetch bd cfg now).2 = [] ∧
    (∀ images, fetch = Except.ok images →
      (processRepository fetch bd cfg now).1.1.imagesDeleted =
        Int.ofNat (selectImagesForDeletion now images cfg).length ∧
      (processRepository fetch bd cfg now).1.1.spaceFreed =
        sumSizes (selectImagesForDeletion now images cfg)) := by
  constructor
  · cases fetch with
    | error e => simp [processRepository]
    | ok images =>
      simp only [processRepository]
      by_cases hsel : (selectImagesForDeletion now images cfg).isEmpty
      · simp [hsel]
      · simp [hsel, hdry]
  · rintro images rfl
    simp only [processRepository]
    by_cases hsel : (selectImagesForDeletion now images cfg).isEmpty
    · have h0 : selectImagesForDeletion now images cfg = [] := List.isEmpty_iff.mp hsel
      simp [hsel, h0, sumSizes]
    · simp [hsel, hdry]

/-- C4 witness: dry run over one fetched image issues no delete call and
reports the selection count and projected bytes. -/
theorem processRepository_dryRun_witness :
    (processRepository (Except.ok [⟨["v1"], some "sha256:fff", some 0, some 9⟩])
        (fun _ => Except.error "must not be called")
        { dryRun := true, days := 1, region := "", maxImages := 0 }
        (2 * secondsPerDay)).2 = [] ∧
    ((processRepository (Except.ok [⟨["v1"], some "sha256:fff", some 0, some 9⟩])
        (fun _ => Except.error "must not be called")
        { dryRun := true, days := 1, region := "", maxImages := 0 }
        (2 * secondsPerDay)).1.1.imagesDeleted =
      Int.ofNat
        (selectImagesForDeletion (2 * secondsPerDay)
          [⟨["v1"], some "sha256:fff", some 0, some 9⟩]
          { dryRun := true, days := 1, region := "", maxImages := 0 }).length ∧
    (processRepository (Except.ok [⟨["v1"], some "sha256:fff", some 0, some 9⟩])
        (fun _ => Except.error "must not be called")
        { dryRun := true, days := 1, region := "", maxImages := 0 }
        (2 * secondsPerDay)).1.1.spaceFreed =
      sumSizes
        (selectImagesForDeletion (2 * secondsPerDay)
          [⟨["v1"], some "sha256:fff", some 0, some 9⟩]
          { dryRun := true, days := 1, region := "", maxImages := 0 })) :=
  ⟨(processRepository_dryRun _ _ _ _ rfl).1,
    (processRepository_dryRun _ _ _ _ rfl).2 _ rfl⟩

/-- C8 counterexample: with a successful fetch of an empty repository the
deletion set is empty, yet the summary is not the all-zero one: its
`RepositoriesProcessed` field is 1 (set at main.go line 156), refuting the
claim that every counter of the returned summary is zero. -/
theorem processRepository_emptySelection_counterexample :
    selectImagesForDeletion 0 []
        { dryRun := false, days := 10, region := "", maxImages := 0 } = [] ∧
    (processRepository (Except.ok []) (fun _ => Except.ok ())
        { dryRun := false, days := 10, region := "", maxImages := 0 } 0).1.2 = none ∧
    (processRepository (Except.ok []) (fun _ => Except.ok ())
        { dryRun := false, days := 10, region := "", maxImages := 0 } 0).1.1 ≠
      { repositoriesProcessed := 0, imagesDeleted := 0, spaceFreed := 0 } := by
  have hsel : selectImagesForDeletion 0 []
      { dryRun := false, days := 10, region := "", maxImages := 0 } = [] := by
    simp [selectImagesForDeletion, sortImagesByPushedTime, List.mergeSort_nil, selectLoop]
  refine ⟨hsel, ?_, ?_⟩
  · simp [processRepository, hsel]
  · simp [processRepository, hsel]

/-- C8 amended: when the computed deletion set of a successfully fetched
repository is empty, `processRepository` returns the summary
`{RepositoriesProcessed := 1, ImagesDeleted := 0, SpaceFreed := 0}` (only
the deletion counters are zero), a nil error, and issues no delete call. -/
theorem processRepository_emptySelection (fetch : Except String (List ImageDetail))
    (bd : List ImageIdentifier → Except String Unit) (cfg : Config) (now : Int)
    (images : List ImageDetail) (hf : fetch = Except.ok images)
    (hsel : selectImagesForDeletion now images cfg = []) :
    processRepository fetch bd cfg now =
      (({ repositoriesProcessed := 1, imagesDeleted := 0, spaceFreed := 0 }, none), []) := by
  subst hf
  simp [processRepository, hsel]

/-- C8 amended witness: an empty repository yields the summary with
`RepositoriesProcessed = 1`, zero deletion counters, no error, no call. -/
theorem processRepository_emptySelection_witness :
    processRepository (Except.ok []) (fun _ => Except.ok ())
        { dryRun := false, days := 10, region := "", maxImages := 0 } 0 =
      (({ repositoriesProcessed := 1, imagesDeleted := 0, spaceFreed := 0 }, none), []) :=
  processRepository_emptySelection (Except.ok []) (fun _ => Except.ok ())
    { dryRun := false, days := 10, region := "", maxImages := 0 } 0 [] rfl
    (by simp [selectImagesForDeletion, sortImagesByPushedTime, List.mergeSort_nil, selectLoop])

/-- Accumulator characterisation of the per-repository loop of
`CleanupWithClient`: repositories whose processing errs contribute zero. -/
theorem cleanup_foldl_spec (proc : String → CleanupSummary × Option String) :
    ∀ (rs : List String) (acc : CleanupSummary),
      rs.foldl
        (fun acc r =>
          match proc r with
          | (repoSummary, none) =>
            { acc with
              imagesDeleted := acc.imagesDeleted + repoSummary.imagesDeleted
              spaceFreed := acc.spaceFreed + repoSummary.spaceFreed }
          | (_, some _) => acc) acc =
      { acc with
        imagesDeleted := acc.imagesDeleted +
          (rs.map (fun r =>
            if (proc r).2 = none then (proc r).1.imagesDeleted else 0)).sum
        spaceFreed := acc.spaceFreed +
          (rs.map (fun r =>
            if (proc r).2 = none then (proc r).1.spaceFreed else 0)).sum } := by
  intro rs
  induction rs with
  | nil => intro acc; simp
  | cons r rest ih =>
    intro acc
    simp only [List.foldl_cons, List.map_cons, List.sum_cons]
    rcases hp : proc r with ⟨rsum, err⟩
    cases err with
    | none =>
      rw [ih]
      simp only [CleanupSummary.mk.injEq, if_true, true_and]
      constructor <;> ring
    | some e =>
      rw [ih]
      simp

/-- C5: `CleanupWithClient` returns a non-nil error exactly when the
repository-list fetch fails; on a successful fetch it returns no error,
counts every listed repository in `RepositoriesProcessed`, and aggregates
`ImagesDeleted` and `SpaceFreed` only over the repositories whose processing
returned no error (a failed repository contributes zero and processing
continues). -/
theorem CleanupWithClient_spec (repos : Except String (List String))
    (proc : String → CleanupSummary × Option String) :
    ((CleanupWithClient repos proc).2.isSome ↔ ∃ e, repos = Except.error e) ∧
    (∀ e, repos = Except.error e →
      CleanupWithClient repos proc =
        ({ repositoriesProcessed := 0, imagesDeleted := 0, spaceFreed := 0 }, some e)) ∧
    (∀ rs, repos = Except.ok rs →
      CleanupWithClient repos proc =
        ({ repositoriesProcessed := Int.ofNat rs.length,
           imagesDeleted :=
             (rs.map (fun r =>
               if (proc r).2 = none then (proc r).1.imagesDeleted else 0)).sum,
           spaceFreed :=
             (rs.map (fun r =>
               if (proc r).2 = none then (proc r).1.spaceFreed else 0)).sum },
          none)) := by
  refine ⟨?_, ?_, ?_⟩
  · cases repos <;> simp [CleanupWithClient]
  · rintro e rfl
    simp [CleanupWithClient]
  · rintro rs rfl
    simp only [CleanupWithClient]
    rw [cleanup_foldl_spec]
    simp

/-- C5 witness: the partial-failure scenario of the spec — repository a
fails, repository b succeeds with one image of 10 bytes; the aggregate has
both repositories counted, one image deleted, and a successful run. -/
theorem CleanupWithClient_spec_witness :
    CleanupWithClient (Except.ok ["a", "b"])
        (fun r =>
          if r = "a" then
            ({ repositoriesProcessed := 1, imagesDeleted := 0, spaceFreed := 0 },
              some "failed to get image details: boom")
          else
            ({ repositoriesProcessed := 1, imagesDeleted := 1, spaceFreed := 10 }, none)) =
      ({ repositoriesProcessed := 2, imagesDeleted := 1, spaceFreed := 10 }, none) := by
  have h := (CleanupWithClient_spec (Except.ok ["a", "b"])
    (fun r =>
      if r = "a" then
        ({ repositoriesProcessed := 1, imagesDeleted := 0, spaceFreed := 0 },
          some "failed to get image details: boom")
      else
        ({ repositoriesProcessed := 1, imagesDeleted := 1, spaceFreed := 10 }, none))).2.2
    ["a", "b"] rfl
  rw [h]
  simp

/-- Behaviour of `deleteImages` on a selection of two chunks whose first
transport call succeeds and whose second fails: both calls are issued, in
order, and the error of the second is returned. -/
theorem deleteImages_two_chunks (bd : List ImageIdentifier → Except String Unit)
    (sel : List ImageDetail) (e : String)
    (hlen1 : 100 < sel.length) (hlen2 : sel.length ≤ 200)
    (h1 : bd ((sel.take 100).map imageIdOf) = Except.ok ())
    (h2 : bd ((sel.drop 100).map imageIdOf) = Except.error e) :
    deleteImages bd sel =
      (Except.error ("failed to delete batch of images: " ++ e),
        [(sel.take 100).map imageIdOf, (sel.drop 100).map imageIdOf]) := by
  have hne : ¬ sel.isEmpty = true := by
    simp only [List.isEmpty_iff]
    intro h0
    rw [h0] at hlen1
    simp at hlen1
  have hne2 : ¬ (sel.drop 100).isEmpty = true := by
    simp only [List.isEmpty_iff]
    intro h0
    have hlen0 := congrArg List.length h0
    simp only [List.length_drop, List.length_nil] at hlen0
    omega
  have htake : (sel.drop 100).take 100 = sel.drop 100 :=
    List.take_of_length_le (by simp only [List.length_drop]; omega)
  rw [deleteImages, if_neg hne]
  simp only [batchSize, h1]
  rw [deleteImages, if_neg hne2]
  simp only [batchSize, htake, h2]

/-- C9: deletion is not atomic across chunks. When the deletion set of a
repository spans two chunks, the first transport call succeeds and the
second fails, the first chunk's delete call has already been issued (it
appears in the trace) and is not undone, `processRepository` returns an
error, and the aggregate of `CleanupWithClient` over this repository shows
zero `ImagesDeleted` and zero `SpaceFreed` — undercounting the deletions
actually performed. -/
theorem processRepository_partial_failure
    (bd : List ImageIdentifier → Except String Unit)
    (images : List ImageDetail) (cfg : Config) (now : Int) (e : String) (r : String)
    (sel : List ImageDetail)
    (hsel : selectImagesForDeletion now images cfg = sel)
    (hdry : cfg.dryRun = false)
    (hlen1 : 100 < sel.length) (hlen2 : sel.length ≤ 200)
    (h1 : bd ((sel.take 100).map imageIdOf) = Except.ok ())
    (h2 : bd ((sel.drop 100).map imageIdOf) = Except.error e) :
    (processRepository (Except.ok images) bd cfg now).2 =
      [(sel.take 100).map imageIdOf, (sel.drop 100).map imageIdOf] ∧
    (processRepository (Except.ok images) bd cfg now).1.2 =
      some ("failed to delete batch of images: " ++ e) ∧
    CleanupWithClient (Except.ok [r])
        (fun _ => (processRepository (Except.ok images) bd cfg now).1) =
      ({ repositoriesProcessed := 1, imagesDeleted := 0, spaceFreed := 0 }, none) := by
  have hne : sel.isEmpty = false := by
    cases h0 : sel.isEmpty
    · rfl
    · rw [List.isEmpty_iff.mp h0] at hlen1
      simp at hlen1
  have hdel := deleteImages_two_chunks bd sel e hlen1 hlen2 h1 h2
  have hpr : processRepository (Except.ok images) bd cfg now =
      (({ repositoriesProcessed := 1,
          imagesDeleted := Int.ofNat sel.length,
          spaceFreed := sumSizes sel },
        some ("failed to delete batch of images: " ++ e)),
       [(sel.take 100).map imageIdOf, (sel.drop 100).map imageIdOf]) := by
    simp only [processRepository, hsel, hne, hdry, hdel]
    simp
  refine ⟨by rw [hpr], by rw [hpr], ?_⟩
  rw [hpr]
  simp [CleanupWithClient]

/-- Sorting a constant list leaves it unchanged. -/
theorem sortImagesByPushedTime_replicate (n : Nat) (img : ImageDetail) :
    sortImagesByPushedTime (List.replicate n img) = List.replicate n img :=
  List.perm_replicate.mp (sortImagesByPushedTime_perm _)

/-- On 101 identical year-old images with `days = 1` and `maxImages = 0`,
the selector selects all of them. -/
theorem selectImagesForDeletion_replicate_old :
    selectImagesForDeletion (2 * secondsPerDay)
      (List.replicate 101 ⟨["v1"], some "sha256:eee", some 0, some 2⟩)
      { dryRun := false, days := 1, region := "", maxImages := 0 } =
    List.replicate 101 ⟨["v1"], some "sha256:eee", some 0, some 2⟩ := by
  rw [selectImagesForDeletion_eq, sortImagesByPushedTime_replicate]
  norm_num
  simp [isOldPred, secondsPerDay]

/-- C9 witness: 101 identical selected images, a transport accepting the
100-identifier call and rejecting the 1-identifier call; both calls appear
in the trace and the aggregate counts zero deletions. -/
theorem processRepository_partial_failure_witness :
    (processRepository
        (Except.ok (List.replicate 101 ⟨["v1"], some "sha256:eee", some 0, some 2⟩))
        (fun ids => if ids.length = 100 then Except.ok () else Except.error "boom")
        { dryRun := false, days := 1, region := "", maxImages := 0 }
        (2 * secondsPerDay)).2 =
      [((List.replicate 101
            (⟨["v1"], some "sha256:eee", some 0, some 2⟩ : ImageDetail)).take 100).map
          imageIdOf,
       ((List.replicate 101
            (⟨["v1"], some "sha256:eee", some 0, some 2⟩ : ImageDetail)).drop 100).map
          imageIdOf] ∧
    (processRepository
        (Except.ok (List.replicate 101 ⟨["v1"], some "sha256:eee", some 0, some 2⟩))
        (fun ids => if ids.length = 100 then Except.ok () else Except.error "boom")
        { dryRun := false, days := 1, region := "", maxImages := 0 }
        (2 * secondsPerDay)).1.2 =
      some ("failed to delete batch of images: " ++ "boom") ∧
    CleanupWithClient (Except.ok ["repo-a"])
        (fun _ =>
          (processRepository
              (Except.ok (List.replicate 101 ⟨["v1"], some "sha256:eee", some 0, some 2⟩))
              (fun ids => if ids.length = 100 then Except.ok () else Except.error "boom")
              { dryRun := false, days := 1, region := "", maxImages := 0 }
              (2 * secondsPerDay)).1) =
      ({ repositoriesProcessed := 1, imagesDeleted := 0, spaceFreed := 0 }, none) :=
  processRepository_partial_failure
    (fun ids => if ids.length = 100 then Except.ok () else Except.error "boom")
    (List.replicate 101 ⟨["v1"], some "sha256:eee", some 0, some 2⟩)
    { dryRun := false, days := 1, region := "", maxImages := 0 }
    (2 * secondsPerDay) "boom" "repo-a"
    (List.replicate 101 ⟨["v1"], some "sha256:eee", some 0, some 2⟩)
    selectImagesForDeletion_replicate_old rfl
    (by simp) (by simp)
    (by simp [List.take_replicate, List.map_replicate])
    (by simp [List.drop_replicate, List.map_replicate])

/-- C10: an empty pagination page triggers no `DescribeImages` call yet the
loop continues to the following pages; every `DescribeImages` call issued
carries a non-empty identifier list taken from one of the pages; and an
empty repository (a single page with no identifiers) yields an empty image
list, no describe call and no error. -/
theorem getImageDetails_pagination
    (de : List ImageIdentifier → Except String (List ImageDetail))
    (pages : List (List ImageIdentifier)) :
    getImageDetails de ([] :: pages) = getImageDetails de pages ∧
    (∀ c ∈ (getImageDetails de pages).2, c ≠ [] ∧ c ∈ pages) ∧
    getImageDetails de [[]] = (Except.ok [], []) := by
  refine ⟨by simp [getImageDetails], ?_, by simp [getImageDetails]⟩
  induction pages with
  | nil =>
    intro c hc
    simp [getImageDetails] at hc
  | cons p rest ih =>
    intro c hc
    by_cases hp : 0 < p.length
    · simp only [getImageDetails, hp, if_true] at hc
      cases hd : de p with
      | error e =>
        rw [hd] at hc
        simp at hc
        subst hc
        exact ⟨by intro h0; rw [h0] at hp; simp at hp, List.mem_cons_self _ _⟩
      | ok imgs =>
        rw [hd] at hc
        rcases hr : getImageDetails de rest with ⟨res, tr⟩
        rw [hr] at hc
        cases res with
        | ok more =>
          simp only [List.mem_cons] at hc
          rcases hc with hc | hc
          · subst hc
            exact ⟨by intro h0; rw [h0] at hp; simp at hp, List.mem_cons_self _ _⟩
          · have hih := ih c (by rw [hr]; exact hc)
            exact ⟨hih.1, List.mem_cons_of_mem _ hih.2⟩
        | error e =>
          simp only [List.mem_cons] at hc
          rcases hc with hc | hc
          · subst hc
            exact ⟨by intro h0; rw [h0] at hp; simp at hp, List.mem_cons_self _ _⟩
          · have hih := ih c (by rw [hr]; exact hc)
            exact ⟨hih.1, List.mem_cons_of_mem _ hih.2⟩
    · have hif : getImageDetails de (p :: rest) = getImageDetails de rest := by
        simp [getImageDetails, hp]
      rw [hif] at hc
      have hih := ih c hc
      exact ⟨hih.1, List.mem_cons_of_mem _ hih.2⟩

/-- C10 witness: over the pages empty, one identifier, empty, the only
describe call carries the non-empty middle page. -/
theorem getImageDetails_pagination_witness :
    ([({ imageTag := some "latest", imageDigest := none } : ImageIdentifier)] ≠
        ([] : List ImageIdentifier) ∧
      [({ imageTag := some "latest", imageDigest := none } : ImageIdentifier)] ∈
        [([] : List ImageIdentifier),
         [{ imageTag := some "latest", imageDigest := none }], []]) :=
  (getImageDetails_pagination (fun _ => Except.ok [])
      [[], [{ imageTag := some "latest", imageDigest := none }], []]).2.1
    [{ imageTag := some "latest", imageDigest := none }]
    (by simp [getImageDetails])

/-- C7 counterexample: an image with no tags and a nil digest does not
resolve to the sentinel unknown label: `getImageTag` dereferences the nil
digest (modelled `none`, a failure), and the deletion identifier built by
`deleteImages` has both fields empty. -/
theorem identifier_resolution_counterexample :
    getImageTag ⟨[], none, some 0, some 1⟩ = none ∧
    getImageTag ⟨[], none, some 0, some 1⟩ ≠ some "unknown" ∧
    imageIdOf ⟨[], none, some 0, some 1⟩ =
      { imageTag := none, imageDigest := none } := by
  refine ⟨rfl, ?_, rfl⟩
  simp [getImageTag]

/-- C7 amended: the identifier used for deletion and for the report is the
first tag when the image has tags, otherwise its digest; an image with
neither tags nor digest yields a deletion identifier with both fields empty
and a nil dereference in `getImageTag` (no sentinel); the sentinel unknown
label is produced by `getImageIdString`, the helper used when logging
per-item batch-delete failures, for an identifier with no populated field. -/
theorem identifier_resolution (img : ImageDetail) :
    (∀ t ts, img.imageTags = t :: ts →
      getImageTag img = some t ∧
      imageIdOf img = { imageTag := some t, imageDigest := none } ∧
      getImageIdString (some (imageIdOf img)) = t) ∧
    (img.imageTags = [] →
      getImageTag img = img.imageDigest ∧
      imageIdOf img = { imageTag := none, imageDigest := img.imageDigest } ∧
      (∀ d, img.imageDigest = some d →
        getImageIdString (some (imageIdOf img)) = d) ∧
      (img.imageDigest = none →
        getImageTag img = none ∧
        getImageIdString (some (imageIdOf img)) = "unknown")) := by
  constructor
  · intro t ts ht
    simp [getImageTag, imageIdOf, getImageIdString, ht]
  · intro ht
    refine ⟨by simp [getImageTag, ht], by simp [imageIdOf, ht], ?_, ?_⟩
    · intro d hd
      simp [getImageIdString, imageIdOf, ht, hd]
    · intro hd
      constructor
      · simp [getImageTag, ht, hd]
      · simp [getImageIdString, imageIdOf, ht, hd]

/-- C7 amended witness: the image with tags latest, v1 resolves to latest
everywhere; the image with no tags and no digest gives a failing
`getImageTag` and the sentinel only through `getImageIdString`. -/
theorem identifier_resolution_witness :
    (getImageTag ⟨["latest", "v1"], some "sha256:abc", some 0, some 1⟩ = some "latest" ∧
      imageIdOf ⟨["latest", "v1"], some "sha256:abc", some 0, some 1⟩ =
        { imageTag := some "latest", imageDigest := none } ∧
      getImageIdString
          (some (imageIdOf ⟨["latest", "v1"], some "sha256:abc", some 0, some 1⟩)) =
        "latest") ∧
    (getImageTag ⟨[], none, some 7, some 1⟩ = none ∧
      getImageIdString (some (imageIdOf ⟨[], none, some 7, some 1⟩)) = "unknown") :=
  ⟨(identifier_resolution ⟨["latest", "v1"], some "sha256:abc", some 0, some 1⟩).1
      "latest" ["v1"] rfl,
    ((identifier_resolution ⟨[], none, some 7, some 1⟩).2 rfl).2.2.2 rfl⟩
